import Mathlib

/-!
Verification of the binary compatibility fact-extraction and classification
engine of the JinGuBang repository (`android_so_analyzer.py`,
`check_android_so.py`) against its natural-language specification.

The Python code is shallowly embedded: the classifiers consume the raw text
that the external inspection tools would have produced, substring membership
(`'x' in s`) becomes an executable scanner over character lists, `re` searches
used by the source are embedded as deterministic scanners for the concrete
patterns appearing in the source, machine integers are `Nat` (all quantities
involved are non-negative), and failing subprocess invocations are
`Except String String` values (the payload is the tool text / stderr).
-/

/-! ## Generic string machinery

Python string primitives used by the analyzer (`in`, `str.split`,
`str.strip`, `str.splitlines`, `str.endswith`, `int(_, 16)`), embedded as
structurally recursive functions on `List Char`.
-/

/-- Whitespace recognized by Python's `str.strip()` / `str.split()` / `\s`. -/
def wsp (c : Char) : Bool :=
  c == ' ' || c == '\t' || c == '\n' || c == '\r' || c.toNat == 11 || c.toNat == 12

/-- ASCII lower-casing on code points (used for case-insensitive matching). -/
def lowerN (n : Nat) : Nat := if 65 ≤ n ∧ n ≤ 90 then n + 32 else n

/-- Case-insensitive character equality (Python `re.IGNORECASE` / `str.lower`). -/
def chEqCI (a b : Char) : Bool := lowerN a.toNat == lowerN b.toNat

/-- `leadsWith p l` : `l` starts with the exact character sequence `p`. -/
def leadsWith : List Char → List Char → Bool
  | [], _ => true
  | _ :: _, [] => false
  | p :: ps, c :: cs => (p == c) && leadsWith ps cs

/-- Case-insensitive variant of `leadsWith`. -/
def leadsWithCI : List Char → List Char → Bool
  | [], _ => true
  | _ :: _, [] => false
  | p :: ps, c :: cs => chEqCI p c && leadsWithCI ps cs

/-- `occursL pat l` : `pat` occurs contiguously somewhere in `l`. -/
def occursL (pat : List Char) : List Char → Bool
  | [] => leadsWith pat []
  | c :: cs => leadsWith pat (c :: cs) || occursL pat cs

/-- Case-insensitive variant of `occursL`. -/
def occursLCI (pat : List Char) : List Char → Bool
  | [] => leadsWithCI pat []
  | c :: cs => leadsWithCI pat (c :: cs) || occursLCI pat cs

/-- Python `pat in s` (case-sensitive substring membership). -/
def occurs (s pat : String) : Bool := occursL pat.data s.data

/-- Substring membership after lower-casing both sides
(Python `pat in s.lower()` with `pat` lower-case, or `re.IGNORECASE`). -/
def occursCI (s pat : String) : Bool := occursLCI pat.data s.data

/-- Python `str.strip()`. -/
def trimStr (s : String) : String :=
  String.mk (((s.data.dropWhile wsp).reverse.dropWhile wsp).reverse)

/-- Helper for `linesOf`: split a character list on newline characters. -/
def splitNlAux : List Char → List Char → List String
  | acc, [] => [String.mk acc.reverse]
  | acc, c :: cs =>
    if c == '\n' then String.mk acc.reverse :: splitNlAux [] cs
    else splitNlAux (c :: acc) cs

/-- Python `s.split('\n')`; on the analyzer's newline-separated tool output it
agrees with `str.splitlines()` (no `\r` and no trailing newline occur there). -/
def linesOf (s : String) : List String := splitNlAux [] s.data

/-- Helper for `tokensOf`: whitespace-splitting with empty runs dropped. -/
def splitWsAux : List Char → List Char → List String
  | acc, [] => if acc.isEmpty then [] else [String.mk acc.reverse]
  | acc, c :: cs =>
    if wsp c then
      if acc.isEmpty then splitWsAux [] cs
      else String.mk acc.reverse :: splitWsAux [] cs
    else splitWsAux (c :: acc) cs

/-- Python `str.split()` (no argument): whitespace-separated tokens. -/
def tokensOf (s : String) : List String := splitWsAux [] s.data

/-- Python `str.endswith(p)`. -/
def endsWithStr (s p : String) : Bool := leadsWith p.data.reverse s.data.reverse

/-- Decimal digit test. -/
def isDigitCh (c : Char) : Bool := 48 ≤ c.toNat && c.toNat ≤ 57

/-- ASCII letter test (`[a-z]` under `re.IGNORECASE`). -/
def isAsciiLetter (c : Char) : Bool :=
  (65 ≤ c.toNat && c.toNat ≤ 90) || (97 ≤ c.toNat && c.toNat ≤ 122)

/-- Greedy `[0-9]+`-style prefix split: the leading digit run and the rest. -/
def takeDigits : List Char → List Char × List Char
  | [] => ([], [])
  | c :: cs =>
    if isDigitCh c then
      let p := takeDigits cs
      (c :: p.1, p.2)
    else ([], c :: cs)

/-- Decimal value of a digit run. -/
def digitsToNat (l : List Char) : Nat := l.foldl (fun a c => a * 10 + (c.toNat - 48)) 0

/-- Hexadecimal value of one character, if it is a hex digit. -/
def hexDigitVal (c : Char) : Option Nat :=
  if 48 ≤ c.toNat ∧ c.toNat ≤ 57 then some (c.toNat - 48)
  else if 97 ≤ c.toNat ∧ c.toNat ≤ 102 then some (c.toNat - 87)
  else if 65 ≤ c.toNat ∧ c.toNat ≤ 70 then some (c.toNat - 55)
  else none

/-- Value of a non-empty all-hex-digit character run. -/
def parseHexCore : List Char → Nat → Option Nat
  | [], _ => none
  | [c], acc => (hexDigitVal c).map (fun v => acc * 16 + v)
  | c :: c2 :: cs, acc =>
    match hexDigitVal c with
    | some v => parseHexCore (c2 :: cs) (acc * 16 + v)
    | none => none

/-- Python `int(s, 16)` (as used on the analyzer's hex fields: an optional
`0x`/`0X` marker followed by hex digits; `none` models the `ValueError`). -/
def int16 (s : String) : Option Nat :=
  match s.data with
  | '0' :: 'x' :: r => parseHexCore r 0
  | '0' :: 'X' :: r => parseHexCore r 0
  | l => parseHexCore l 0

/-! ## `get_section_info` (android_so_analyzer.py, lines 574-640)

Parses `readelf -S` text into section records, then accumulates per-name size
statistics (sizes that fail `int(size, 16)` are skipped from the statistics
only; the dict-update semantics of `section_sizes[name] = ...` is kept).
-/

/-- One row of the parsed section table, exactly the dict built by
`get_section_info` (`index`/`name`/`type`/`address`/`offset`/`size`,
all raw strings). -/
structure PySection where
  index : String
  name : String
  type : String
  address : String
  offset : String
  size : String
deriving DecidableEq, Repr

/-- Python `parts[0].strip('[]')`. -/
def stripBr (s : String) : String :=
  let p := fun c => c == '[' || c == ']'
  String.mk ((s.data.dropWhile p).reverse.dropWhile p).reverse

/-- One loop body of `get_section_info` applied to an already-stripped line:
accepted iff the line is non-empty, starts with `[`, contains `]` and splits
into at least 7 whitespace tokens; fields are tokens 0-5. -/
def parseSectionLine (line : String) : Option PySection :=
  match line.data with
  | '[' :: _ =>
    if occurs line "]" then
      let parts := tokensOf line
      if 7 ≤ parts.length then
        some { index := stripBr (parts.getD 0 ""), name := parts.getD 1 "",
               type := parts.getD 2 "", address := parts.getD 3 "",
               offset := parts.getD 4 "", size := parts.getD 5 "" }
      else none
    else none
  | _ => none

/-- The line loop of `get_section_info`: lines are stripped; a line containing
`Section Headers:` switches the `header_found` flag (and is itself skipped);
once the flag is set, lines accepted by `parseSectionLine` are collected in
input order and every other line is skipped. -/
def collectSections : Bool → List String → List PySection
  | _, [] => []
  | found, l :: ls =>
    let line := trimStr l
    if occurs line "Section Headers:" then collectSections true ls
    else if found then
      match parseSectionLine line with
      | some s => s :: collectSections found ls
      | none => collectSections found ls
    else collectSections found ls

/-- Insert-or-overwrite on an ordered association list: Python dict assignment
`section_sizes[name] = ...` (insertion order preserved, later assignment to an
existing key overwrites in place). -/
def upsert (l : List (String × Nat)) (k : String) (v : Nat) : List (String × Nat) :=
  if l.any (fun p => p.1 == k) then
    l.map (fun p => if p.1 == k then (k, v) else p)
  else l ++ [(k, v)]

/-- The size-accumulation loop of `get_section_info`: for each section, try
`int(size, 16)`; on success add to the running total and upsert the per-name
table; on `ValueError` leave both untouched (the section itself stays in the
parsed list). -/
def sectionSizesFold (secs : List PySection) : Nat × List (String × Nat) :=
  secs.foldl (fun acc s =>
    match int16 s.size with
    | some v => (acc.1 + v, upsert acc.2 s.name v)
    | none => acc) (0, [])

/-- Result of `get_section_info` (byte values kept; the human-readable
renderings of the source are presentation only). -/
structure SectionInfoResult where
  sections : List PySection
  total_size : Nat
  section_sizes : List (String × Nat)
deriving DecidableEq, Repr

/-- `get_section_info` applied to successful `readelf -S` text. -/
def get_section_info_core (stdout : String) : SectionInfoResult :=
  let secs := collectSections false (linesOf stdout)
  let st := sectionSizesFold secs
  { sections := secs, total_size := st.1, section_sizes := st.2 }

/-! ## `check_hash_style` (android_so_analyzer.py, lines 642-714) -/

/-- Result of `check_hash_style` (verdict, presence booleans, and the
verdict-derived `compatibility`/`link_flag` fields; the Chinese
description/recommendation strings are presentation only and also derive
purely from the verdict). -/
structure HashStyleResult where
  hash_style : String
  compatibility : String
  link_flag : String
  has_gnu_hash : Bool
  has_sysv_hash : Bool
deriving DecidableEq, Repr

/-- `check_hash_style` applied to successful `readelf -S` text:
`has_gnu_hash = '.gnu.hash' in stdout`, `has_sysv_hash = '.hash' in stdout`,
then the first-match verdict chain both/gnu/sysv/unknown. -/
def check_hash_style_core (stdout : String) : HashStyleResult :=
  let has_gnu_hash := occurs stdout ".gnu.hash"
  let has_sysv_hash := occurs stdout ".hash"
  if has_gnu_hash && has_sysv_hash then
    { hash_style := "both", compatibility := "all",
      link_flag := "-Wl,--hash-style=both",
      has_gnu_hash := has_gnu_hash, has_sysv_hash := has_sysv_hash }
  else if has_gnu_hash then
    { hash_style := "gnu", compatibility := "≥23 (Android 6.0+)",
      link_flag := "-Wl,--hash-style=gnu",
      has_gnu_hash := has_gnu_hash, has_sysv_hash := has_sysv_hash }
  else if has_sysv_hash then
    { hash_style := "sysv", compatibility := "all",
      link_flag := "-Wl,--hash-style=sysv",
      has_gnu_hash := has_gnu_hash, has_sysv_hash := has_sysv_hash }
  else
    { hash_style := "unknown", compatibility := "unknown",
      link_flag := "unknown",
      has_gnu_hash := has_gnu_hash, has_sysv_hash := has_sysv_hash }

/-- `analyze_hash_sections` (check_android_so.py, lines 54-68): per line of
`output.split('\n')`, a line containing `.gnu.hash` sets the first flag;
otherwise a line containing `.hash` that does not (after strip) start with
`[` sets the second flag. Returns `(gnu_hash_found, trad_hash_found)`. -/
def analyze_hash_sections (output : String) : Bool × Bool :=
  (linesOf output).foldl (fun acc line =>
    if occurs line ".gnu.hash" then (true, acc.2)
    else if occurs line ".hash" && !(leadsWith ['['] (trimStr line).data) then (acc.1, true)
    else acc) (false, false)

/-! ## `check_relocation_packing` (android_so_analyzer.py, lines 716-796) -/

/-- Result of `check_relocation_packing` (verdict, presence booleans, sizes,
and the verdict-derived `compatibility`/`link_flag`; Chinese
description/recommendation strings are presentation only). -/
structure RelocPackingResult where
  relocation_packing : String
  compatibility : String
  link_flag : String
  has_relr : Bool
  has_traditional_rel : Bool
  rel_size : Nat
  relr_size : Nat
deriving DecidableEq, Repr

/-- `check_relocation_packing` applied to successful `readelf -S` text:
substring flags `'.relr.dyn' in stdout`, `'.rel.dyn' in stdout`,
`'.rela.dyn' in stdout`; sizes from `get_section_info`'s per-name table
(`rel_size` sums the `.rel.dyn`/`.rela.dyn` entries, `relr_size` is assigned
from the `.relr.dyn` entry); verdict chain android / none / unknown. -/
def check_relocation_packing_core (stdout : String) : RelocPackingResult :=
  let has_relr := occurs stdout ".relr.dyn"
  let has_trad_rel := occurs stdout ".rel.dyn"
  let has_trad_rela := occurs stdout ".rela.dyn"
  let sizes := (get_section_info_core stdout).section_sizes
  let rel_size := sizes.foldl (fun a p =>
    if p.1 == ".rel.dyn" || p.1 == ".rela.dyn" then a + p.2 else a) 0
  let relr_size := sizes.foldl (fun a p =>
    if p.1 == ".relr.dyn" then p.2 else a) 0
  if has_relr then
    { relocation_packing := "android", compatibility := "≥23 (Android 6.0+)",
      link_flag := "-Wl,--pack-dyn-relocs=android",
      has_relr := has_relr, has_traditional_rel := has_trad_rel || has_trad_rela,
      rel_size := rel_size, relr_size := relr_size }
  else if has_trad_rel || has_trad_rela then
    { relocation_packing := "none", compatibility := "all",
      link_flag := "未使用 --pack-dyn-relocs=android",
      has_relr := has_relr, has_traditional_rel := has_trad_rel || has_trad_rela,
      rel_size := rel_size, relr_size := relr_size }
  else
    { relocation_packing := "unknown", compatibility := "unknown",
      link_flag := "unknown",
      has_relr := has_relr, has_traditional_rel := has_trad_rel || has_trad_rela,
      rel_size := rel_size, relr_size := relr_size }

/-- `analyze_relocation_sections` (check_android_so.py, lines 70-85): per line
of `output.split('\n')`, a line whose lower-casing contains `rela.dyn` sets the
first flag if it contains `ANDROID_RELA`, else the second flag if it contains
`RELA` (the source also guards on the flag not being set yet, which does not
change the final value but is kept). Returns
`(android_rela_found, traditional_rela_found)`. -/
def analyze_relocation_sections (output : String) : Bool × Bool :=
  (linesOf output).foldl (fun acc line =>
    if occursCI line "rela.dyn" then
      if occurs line "ANDROID_RELA" then (true, acc.2)
      else if occurs line "RELA" && !acc.2 then (acc.1, true)
      else acc
    else acc) (false, false)

/-! ## LOAD-segment alignment parsing (`check_alignment`,
android_so_analyzer.py, lines 374-544) -/

/-- `re.search(r'align\s+2\*\*(\d+)', line)` at one position: the literal
`align`, one or more whitespace characters, the literal `2**`, then a
non-empty greedy digit run (the captured group). -/
def matchAlignAt (cs : List Char) : Option Nat :=
  if leadsWith "align".data cs then
    let r := cs.drop 5
    let ws := r.takeWhile wsp
    if ws.isEmpty then none
    else
      let r2 := r.dropWhile wsp
      if leadsWith "2**".data r2 then
        let p := takeDigits (r2.drop 3)
        if p.1.isEmpty then none else some (digitsToNat p.1)
      else none
  else none

/-- Leftmost `align 2**n` match in a line (the power `n`). -/
def searchAlign : List Char → Option Nat
  | [] => none
  | c :: cs =>
    match matchAlignAt (c :: cs) with
    | some v => some v
    | none => searchAlign cs

/-- Greedy `[0-9a-fA-F]+`-style prefix split. -/
def takeHexDigits : List Char → List Char × List Char
  | [] => ([], [])
  | c :: cs =>
    if (hexDigitVal c).isSome then
      let p := takeHexDigits cs
      (c :: p.1, p.2)
    else ([], c :: cs)

/-- `re.search(r'Align\s+(0x[0-9a-fA-F]+)', line)` at one position (readelf
`-l` layout): literal `Align`, whitespace, then `0x` and hex digits; the
captured group is parsed with `int(_, 16)`. -/
def matchAlignHexAt (cs : List Char) : Option Nat :=
  if leadsWith "Align".data cs then
    let r := cs.drop 5
    let ws := r.takeWhile wsp
    if ws.isEmpty then none
    else
      let r2 := r.dropWhile wsp
      if leadsWith "0x".data r2 then
        let p := takeHexDigits (r2.drop 2)
        if p.1.isEmpty then none else parseHexCore p.1 0
      else none
  else none

/-- Leftmost `Align 0x...` match in a line (the byte value). -/
def searchAlignHex : List Char → Option Nat
  | [] => none
  | c :: cs =>
    match matchAlignHexAt (c :: cs) with
    | some v => some v
    | none => searchAlignHex cs

/-- The objdump-branch LOAD loop of `check_alignment` (lines 449-466) over a
line list: each line is stripped; lines containing `LOAD` are appended to the
raw-info log; a successful `align 2**n` match contributes `2^n`, and the
running maximum (with its power) is kept under the source's strict
`align_value > max_align` update. -/
def loadAlignsObjdumpStep (acc : List Char × Option (Nat × Nat)) (l : String) :
    List Char × Option (Nat × Nat) :=
  let line := trimStr l
  if occurs line "LOAD" then
    let raw := acc.1 ++ line.data ++ ['\n']
    match searchAlign line.data with
    | some p =>
      let v := 2 ^ p
      match acc.2 with
      | none => (raw, some (v, p))
      | some (m, mp) => if v > m then (raw, some (v, p)) else (raw, some (m, mp))
    | none => (raw, acc.2)
  else acc

/-- See `loadAlignsObjdumpStep`; the pair is the accumulated raw-info log and
the best `(bytes, power)` seen so far. -/
def loadAlignsObjdump (ls : List String) : String × Option (Nat × Nat) :=
  let a := ls.foldl loadAlignsObjdumpStep ([], none)
  (String.mk a.1, a.2)

/-- The readelf-branch LOAD loop of `check_alignment` (lines 501-516): lines
are not stripped here; lines containing `LOAD` are logged and `Align 0x...`
values contribute to the running maximum. -/
def loadAlignsReadelf (ls : List String) : String × Option Nat :=
  ls.foldl (fun acc l =>
    if occurs l "LOAD" then
      let raw := acc.1 ++ l.data ++ ['\n']
      match searchAlignHex l.data with
      | some v =>
        match acc.2 with
        | none => (raw, some v)
        | some m => if v > m then (raw, some v) else (raw, some m)
      | none => (raw, acc.2)
    else acc) ([], none)
  |> fun a => (String.mk a.1, a.2)

/-- The assessment string derived from the best LOAD alignment
(lines 470-480 / 529-540). -/
def alignAssessment (a : Nat) : String :=
  if 65536 ≤ a then "Excellent (64K alignment)"
  else if 16384 ≤ a then "Very Good (16K alignment)"
  else if 4096 ≤ a then "Good (4K alignment)"
  else if 1024 ≤ a then "Acceptable (1K alignment)"
  else "Sub-optimal"

/-- The `zip_alignment` block of `check_alignment` (lines 390-423): the first
alignment in `[16384, 65536]` dividing the file size wins; otherwise the
candidate with the smaller remainder (first wins ties) is reported together
with that remainder. Returns `(is_aligned, alignment_bytes, remainder)`. -/
def zipAlignment (n : Nat) : Bool × Nat × Option Nat :=
  if n % 16384 = 0 then (true, 16384, none)
  else if n % 65536 = 0 then (true, 65536, none)
  else if n % 65536 < n % 16384 then (false, 65536, some (n % 65536))
  else (false, 16384, some (n % 16384))

/-- The `load_alignment` sub-dictionary of `check_alignment`'s result:
which keys are set depends on which tool produced the data. -/
structure LoadAlignInfo where
  raw_info : Option String
  alignment_bytes : Option Nat
  alignment_power : Option Nat
  assessment : Option String
  file_info : Option String
  heuristic : Bool
deriving DecidableEq, Repr

/-- Result of `check_alignment` on its modeled (non-raising) paths. -/
structure AlignmentInfo where
  file_size : Nat
  zip_is_aligned : Bool
  zip_alignment_bytes : Nat
  zip_remainder : Option Nat
  load : LoadAlignInfo
deriving DecidableEq, Repr

/-- Text recorded from the `file` fallback command
(`file_result.stdout.strip()`; empty when the command failed). -/
def fileInfoOf (filec : Except String String) : String :=
  match filec with
  | .ok t => trimStr t
  | .error _ => ""

/-- `check_alignment` (lines 374-544), taking the file size and the outcomes
of the three collaborator commands (`objdump -p`, `readelf -l`, `file`).
A non-zero `objdump` exit skips its branch; a non-zero `readelf` exit returns
early with only the `file` info; a successful parse returns the maximum LOAD
alignment with its assessment; if no alignment is parsed anywhere, the 4096
heuristic is reported. -/
def check_alignment_model (n : Nat) (objd readl filec : Except String String) :
    AlignmentInfo :=
  let z := zipAlignment n
  let base : AlignmentInfo :=
    { file_size := n, zip_is_aligned := z.1, zip_alignment_bytes := z.2.1,
      zip_remainder := z.2.2,
      load := { raw_info := none, alignment_bytes := none, alignment_power := none,
                assessment := none, file_info := none, heuristic := false } }
  let afterObjdump : Option String × Option AlignmentInfo :=
    match objd with
    | .ok t =>
      let r := loadAlignsObjdump (linesOf t)
      match r.2 with
      | some (v, p) =>
        (some r.1, some { base with
          load := { raw_info := some r.1, alignment_bytes := some v,
                    alignment_power := some p,
                    assessment := some (alignAssessment v), file_info := none,
                    heuristic := false } })
      | none => (some r.1, none)
    | .error _ => (none, none)
  match afterObjdump.2 with
  | some done => done
  | none =>
    match readl with
    | .error _ =>
      { base with
        load := { raw_info := afterObjdump.1, alignment_bytes := none,
                  alignment_power := none, assessment := none,
                  file_info := some (fileInfoOf filec), heuristic := false } }
    | .ok t =>
      let r := loadAlignsReadelf (linesOf t)
      match r.2 with
      | some v =>
        { base with
          load := { raw_info := some r.1, alignment_bytes := some v,
                    alignment_power := none,
                    assessment := some (alignAssessment v), file_info := none,
                    heuristic := false } }
      | none =>
        { base with
          load := { raw_info := some r.1, alignment_bytes := some 4096,
                    alignment_power := none,
                    assessment := some (alignAssessment 4096),
                    file_info := some (fileInfoOf filec), heuristic := true } }

/-! ## `analyze_clang_ndk_version` (android_so_analyzer.py, lines 798-988)

The `re.findall(...)[0]` idiom used by the source returns the leftmost match;
each pattern has a fixed literal head followed by a captured token, so it is
embedded as a position-by-position scanner that tries the full pattern at
every index and falls back to the next index on failure — exactly the regex
engine's behavior for these patterns (no backtracking cases arise).
-/

/-- `([a-z][0-9]+[a-z]?)` under `re.IGNORECASE`, at one position: a letter,
a greedy non-empty digit run, and an optional trailing letter. -/
def matchNdkIdAt : List Char → Option String
  | [] => none
  | c :: rest =>
    if isAsciiLetter c then
      match takeDigits rest with
      | ([], _) => none
      | (ds, r) =>
        match r with
        | c2 :: _ => if isAsciiLetter c2 then some (String.mk (c :: ds ++ [c2]))
                     else some (String.mk (c :: ds))
        | [] => some (String.mk (c :: ds))
    else none

/-- `([0-9]+\.[0-9]+\.[0-9]+)` at one position: three greedy non-empty digit
runs separated by dots, returned as a `(major, minor, patch)` triple
(the source immediately re-splits the captured text on `.` and converts each
part with `int`). -/
def matchTriple (cs : List Char) : Option (Nat × Nat × Nat) :=
  match takeDigits cs with
  | ([], _) => none
  | (d1, r1) =>
    match r1 with
    | '.' :: r2 =>
      match takeDigits r2 with
      | ([], _) => none
      | (d2, r3) =>
        match r3 with
        | '.' :: r4 =>
          match takeDigits r4 with
          | ([], _) => none
          | (d3, _) => some (digitsToNat d1, digitsToNat d2, digitsToNat d3)
        | _ => none
    | _ => none

/-- Leftmost match of a case-insensitive literal followed by a capture:
`re.findall(lit + cap, s, re.IGNORECASE)[0]`. -/
def findCapAfterStr (lit : List Char) (cap : List Char → Option A) :
    List Char → Option A
  | [] => none
  | c :: cs =>
    match (if leadsWithCI lit (c :: cs) then cap ((c :: cs).drop lit.length) else none) with
    | some r => some r
    | none => findCapAfterStr lit cap cs

/-- Phase 1 of the inference (lines 853-866): the ordered direct NDK-marker
patterns `Android NDK <id>`, `NDK <id>`, `android-ndk-<id>`; the first pattern
with a match anywhere wins and its leftmost capture is taken. -/
def directNdkDetect (corpus : String) : Option String :=
  match findCapAfterStr "Android NDK ".data matchNdkIdAt corpus.data with
  | some v => some v
  | none =>
    match findCapAfterStr "NDK ".data matchNdkIdAt corpus.data with
    | some v => some v
    | none => findCapAfterStr "android-ndk-".data matchNdkIdAt corpus.data

/-- Phase 2 of the inference (lines 869-909): the ordered Clang-version
patterns `clang version X.Y.Z`, `clang-X.Y.Z`, falling back to the LLVM
patterns `LLVM version X.Y.Z`, `libLLVM-X.Y.Z` when neither Clang pattern
matches (the LLVM version is then used as the Clang version). -/
def extractClangVersion (corpus : String) : Option (Nat × Nat × Nat) :=
  match findCapAfterStr "clang version ".data matchTriple corpus.data with
  | some v => some v
  | none =>
    match findCapAfterStr "clang-".data matchTriple corpus.data with
    | some v => some v
    | none =>
      match findCapAfterStr "LLVM version ".data matchTriple corpus.data with
      | some v => some v
      | none => findCapAfterStr "libLLVM-".data matchTriple corpus.data

/-- One row of the static `NDK_CLANG_MAPPING` table: the NDK id and its
reference Clang version (the paired LLVM column of the source is never read
by the inference). -/
structure NdkEntry where
  ndk : String
  cmaj : Nat
  cmin : Nat
  cpatch : Nat
deriving DecidableEq, Repr

/-- `NDK_CLANG_MAPPING` (lines 812-830), in the source's insertion order
(newest first) — the iteration order of the strict-improvement minimum search
makes this order load-bearing for tie-breaking. -/
def NDK_CLANG_MAPPING : List NdkEntry :=
  [⟨"r27", 18, 1, 0⟩, ⟨"r26", 17, 0, 2⟩, ⟨"r25", 14, 0, 7⟩, ⟨"r24", 14, 0, 1⟩,
   ⟨"r23", 12, 0, 9⟩, ⟨"r22", 11, 0, 5⟩, ⟨"r21", 9, 0, 9⟩, ⟨"r20", 8, 0, 7⟩,
   ⟨"r19", 7, 0, 2⟩, ⟨"r18", 6, 0, 2⟩, ⟨"r17", 6, 0, 2⟩, ⟨"r16", 5, 0, 300080⟩,
   ⟨"r15", 5, 0, 300080⟩, ⟨"r14", 4, 0, 0⟩, ⟨"r13", 3, 8, 275480⟩,
   ⟨"r12", 3, 8, 256229⟩]

/-- The version distance of lines 923-925:
`|Δmajor| * 100 + |Δminor|` (patch components ignored). -/
def clangDiff (vmaj vmin : Nat) (e : NdkEntry) : Nat :=
  Nat.dist vmaj e.cmaj * 100 + Nat.dist vmin e.cmin

/-- One iteration of the `closest_ndk`/`closest_diff` loop: keep the incumbent
unless the entry's distance is a strict improvement. -/
def closestStep (vmaj vmin : Nat) (acc : Option (String × Nat)) (e : NdkEntry) :
    Option (String × Nat) :=
  match acc with
  | none => some (e.ndk, clangDiff vmaj vmin e)
  | some (n, d) =>
    if clangDiff vmaj vmin e < d then some (e.ndk, clangDiff vmaj vmin e)
    else some (n, d)

/-- The `closest_ndk`/`closest_diff` loop (lines 913-929): fold over the table
keeping the first strict minimum of `clangDiff`. -/
def closestNdk (vmaj vmin : Nat) : Option (String × Nat) :=
  NDK_CLANG_MAPPING.foldl (closestStep vmaj vmin) none

/-- Certainty from the chosen distance (lines 935-940):
`0 → high`, `< 5 → medium`, otherwise `low`. -/
def certaintyOfDiff (d : Nat) : String :=
  if d = 0 then "high" else if d < 5 then "medium" else "low"

/-- The inference-relevant fields of the `version_info` dict. -/
structure NdkVersionInfo where
  clang_version : Option (Nat × Nat × Nat)
  ndk_version : String
  ndk_version_certainty : String
  detection_method : String
deriving DecidableEq, Repr

/-- Phase 3 (lines 911-945), reached when no direct marker was found and a
compiler version was: nearest-table-entry lookup plus certainty assignment. -/
def clang_inference_result (vmaj vmin vpatch : Nat) : NdkVersionInfo :=
  match closestNdk vmaj vmin with
  | some (n, d) =>
    { clang_version := some (vmaj, vmin, vpatch), ndk_version := n,
      ndk_version_certainty := certaintyOfDiff d,
      detection_method := "clang_inference" }
  | none =>
    { clang_version := some (vmaj, vmin, vpatch), ndk_version := "unknown",
      ndk_version_certainty := "unknown", detection_method := "unknown" }

/-- `analyze_clang_ndk_version` applied to successful `strings` output:
direct detection wins with certainty `high` and method `direct`; otherwise a
detected compiler version is mapped through the table; otherwise everything
stays `unknown` (absence never raises). -/
def analyze_clang_ndk_version_core (corpus : String) : NdkVersionInfo :=
  match directNdkDetect corpus with
  | some v =>
    { clang_version := extractClangVersion corpus, ndk_version := v,
      ndk_version_certainty := "high", detection_method := "direct" }
  | none =>
    match extractClangVersion corpus with
    | some (a, b, c) => clang_inference_result a b c
    | none =>
      { clang_version := none, ndk_version := "unknown",
        ndk_version_certainty := "unknown", detection_method := "unknown" }

/-! ## `align_so_file` (android_so_analyzer.py, lines 1029-1085) -/

/-- Outcome of `align_so_file`: the guard-failure dict, the already-aligned
dict (no file written), the success dict together with the bytes written to
the output path, or an uncaught exception (`alignment = 0` raises
`ZeroDivisionError` before the `try` block). -/
inductive AlignFileResult where
  | failed (error : String)
  | already_aligned (original_size alignment : Nat)
  | aligned (original_size aligned_size padding_added alignment : Nat)
            (output_path : String) (output : List Nat)
  | raised (exc : String)
deriving DecidableEq, Repr

/-- The aligned-size computation of line 1050:
`((original_size + alignment - 1) // alignment) * alignment`. -/
def alignedSizeOf (n a : Nat) : Nat := (n + a - 1) / a * a

/-- `align_so_file` with the default output path (`output_path=None`): the
input file is read as a byte list; on success the output written at
`file_path + ".aligned"` is the original bytes followed by zero-padding. -/
def align_so_file (file_exists : Bool) (file_path : String) (content : List Nat)
    (alignment : Nat) : AlignFileResult :=
  if file_exists = false then .failed ("文件不存在: " ++ file_path)
  else if endsWithStr file_path ".so" = false then .failed ("不是SO文件: " ++ file_path)
  else if alignment = 0 then .raised "ZeroDivisionError"
  else
    let original_size := content.length
    let aligned_size := alignedSizeOf original_size alignment
    let padding_needed := aligned_size - original_size
    if padding_needed = 0 then .already_aligned original_size alignment
    else .aligned original_size aligned_size padding_needed alignment
      (file_path ++ ".aligned") (content ++ List.replicate padding_needed 0)

/-! ## `analyze_so_file` (android_so_analyzer.py, lines 1087-1110)

The run is a function of the target path and of the outcomes of the external
collaborator commands, gathered in a `ToolEnv`. The four classifier
dimensions and the section parser are fully embedded; the remaining
data-gathering dimensions (architecture, symbols, dependencies, ELF header,
optimization) follow the identical per-dimension `try`/error-dict pattern and
are represented by their tool outcome wrapped with the source's error
message, their further presentation-level parsing being out of scope.
-/

/-- Outcomes of the external commands a single analysis run consumes
(`Except.error` carries the stderr of a non-zero exit). -/
structure ToolEnv where
  file_exists : Bool
  ndk_root_set : Bool
  file_size : Nat
  file_cmd : Except String String
  nm_out : Except String String
  readelf_d : Except String String
  objdump_p : Except String String
  readelf_l : Except String String
  readelf_h : Except String String
  readelf_s : Except String String
  strings_out : Except String String

/-- `get_section_info` including its tool-failure guard (lines 585-588). -/
def get_section_info_t (r : Except String String) : Except String SectionInfoResult :=
  match r with
  | .error e => .error ("Error getting section info: " ++ e)
  | .ok s => .ok (get_section_info_core s)

/-- `check_hash_style` including its tool-failure guard (lines 668-671). -/
def check_hash_style_t (r : Except String String) : Except String HashStyleResult :=
  match r with
  | .error e => .error ("Error analyzing hash style: " ++ e)
  | .ok s => .ok (check_hash_style_core s)

/-- `check_relocation_packing` including its tool-failure guard
(lines 739-742). -/
def check_relocation_packing_t (r : Except String String) :
    Except String RelocPackingResult :=
  match r with
  | .error e => .error ("Error analyzing relocation packing: " ++ e)
  | .ok s => .ok (check_relocation_packing_core s)

/-- `analyze_clang_ndk_version` including its tool-failure guard
(lines 834-837). -/
def analyze_clang_ndk_version_t (r : Except String String) :
    Except String NdkVersionInfo :=
  match r with
  | .error e => .error ("Error extracting strings from file: " ++ e)
  | .ok s => .ok (analyze_clang_ndk_version_core s)

/-- `get_so_architecture` (lines 172-195): `file` runs with `check=True`, so a
non-zero exit is caught and becomes the dimension's error dict. -/
def get_so_architecture_t (r : Except String String) : Except String String :=
  match r with
  | .error e => .error ("Error getting architecture info: " ++ e)
  | .ok t =>
    .ok (if occurs t "ARM aarch64" then "arm64-v8a"
         else if occurs t "ARM," then "armeabi-v7a"
         else if occurs t "Intel 80386" then "x86"
         else if occurs t "x86-64" then "x86_64"
         else "unknown")

/-- `get_exported_symbols` gating (lines 211-241): an unset `NDK_ROOT` or a
non-zero `nm` exit degrades the dimension; otherwise the raw symbol text
stands for the parsed tables. -/
def get_exported_symbols_t (ndk_root_set : Bool) (r : Except String String) :
    Except String String :=
  if ndk_root_set = false then .error "NDK_ROOT环境变量未设置"
  else
    match r with
    | .error e => .error ("Error getting symbols: " ++ e)
    | .ok t => .ok t

/-- The per-run result dict of `analyze_so_file` (one field per dimension). -/
structure SoAnalysis where
  basic_info_size : Nat
  architecture : Except String String
  exported_symbols : Except String String
  dependencies : Except String String
  alignment : AlignmentInfo
  elf_header : Except String String
  section_info : Except String SectionInfoResult
  optimization : Except String String
  hash_style : Except String HashStyleResult
  relocation_packing : Except String RelocPackingResult
  ndk_version : Except String NdkVersionInfo

/-- `analyze_so_file`: a missing file or a path not ending in `.so` aborts the
whole run with a top-level error dict; otherwise every dimension is computed
from its own collaborator outcomes (`readelf -S` feeds section-info,
hash-style and relocation-packing; `strings` feeds optimization and the NDK
inference; `objdump -p`/`readelf -l`/`file` feed alignment). -/
def analyze_so_file_model (file_path : String) (env : ToolEnv) :
    Except String SoAnalysis :=
  if env.file_exists = false then .error ("File not found: " ++ file_path)
  else if endsWithStr file_path ".so" = false then
    .error ("Not a .so file: " ++ file_path)
  else .ok
    { basic_info_size := env.file_size
      architecture := get_so_architecture_t env.file_cmd
      exported_symbols := get_exported_symbols_t env.ndk_root_set env.nm_out
      dependencies := (match env.readelf_d with
        | .error e => .error ("Error getting dependencies: " ++ e)
        | .ok t => .ok t)
      alignment := check_alignment_model env.file_size env.objdump_p
        env.readelf_l env.file_cmd
      elf_header := (match env.readelf_h with
        | .error e => .error ("Error getting ELF header info: " ++ e)
        | .ok t => .ok t)
      section_info := get_section_info_t env.readelf_s
      optimization := (match env.strings_out with
        | .error e => .error ("Error analyzing optimization: " ++ e)
        | .ok t => .ok t)
      hash_style := check_hash_style_t env.readelf_s
      relocation_packing := check_relocation_packing_t env.readelf_s
      ndk_version := analyze_clang_ndk_version_t env.strings_out }

/-! ## The 16KB alignment classifier and the relocation entry-count
accounting (spec sections 4.2 and 4.4)

`src/android_so_analyzer.py`'s `check_alignment` only reports the maximum
LOAD alignment with an assessment string, and its `check_relocation_packing`
computes no per-entry counts (its `get_section_info` does not even parse the
entry-size column). The per-segment classifier with the `supports_16kb`
verdict and the `entry_count` accounting are exercised by
`test_so_analyzer.py` (the `16KB页面对齐检查` and `重定位表压缩分析` report
sections), but that revision of the analyzer is not under `src/`; both are
therefore modelled from the specification's words.
-/

/-- Modelled from the spec: `SegmentFact` (spec section 3) — the program-header
facts the 16KB alignment classifier consumes; `alignment` is the byte value
reconstructed as `2^align_power`. -/
structure SegmentFact where
  kind : String
  file_offset : Nat
  virtual_address : Nat
  alignment : Nat
deriving DecidableEq, Repr

/-- Modelled from the spec: the per-segment boolean `alignment >= 16384`
(spec section 4.2), the authoritative per-segment signal. -/
def segment_alignment_16kb (s : SegmentFact) : Bool := decide (16384 ≤ s.alignment)

/-- Modelled from the spec: the per-segment diagnostic boolean
`file_offset % 16384 == 0` (spec section 4.2). -/
def segment_offset_16kb (s : SegmentFact) : Bool := s.file_offset % 16384 == 0

/-- Modelled from the spec: the per-segment diagnostic boolean
`virtual_address % 16384 == 0` (spec section 4.2). -/
def segment_vaddr_16kb (s : SegmentFact) : Bool := s.virtual_address % 16384 == 0

/-- Modelled from the spec: the LOAD segments of a parsed listing
(kinds other than `LOAD` are ignored, spec section 3). -/
def load_segments (segs : List SegmentFact) : List SegmentFact :=
  segs.filter (fun s => s.kind == "LOAD")

/-- Modelled from the spec: the overall verdict of the missing classifier —
`supports_16kb` is true iff every LOAD segment's `alignment >= 16384`
(spec section 4.2). -/
def supports_16kb (segs : List SegmentFact) : Bool :=
  (load_segments segs).all segment_alignment_16kb

/-- Modelled from the spec: `SectionFact` (spec section 3) — the section facts
the relocation accounting consumes. -/
structure SectionFact where
  index : Nat
  name : String
  type : String
  address : Nat
  file_offset : Nat
  size : Nat
  entry_size : Nat
deriving DecidableEq, Repr

/-- Modelled from the spec: the relocation classifier's match predicate —
the section name contains `rel` or `android`, case-insensitively
(spec section 4.4). -/
def rel_matches (s : SectionFact) : Bool :=
  occursCI s.name "rel" || occursCI s.name "android"

/-- Modelled from the spec: a matched section enters the totals only with
`size > 0` and `entry_size > 0` (spec section 4.4). -/
def rel_included (s : SectionFact) : Bool :=
  rel_matches s && decide (0 < s.size) && decide (0 < s.entry_size)

/-- Modelled from the spec: the aggregate `(total_count, total_size)` of the
missing relocation accounting — one pass over the sections, adding
`size / entry_size` (integer division) and `size` for each included section
and nothing for any other section (spec section 4.4). -/
def reloc_totals (l : List SectionFact) : Nat × Nat :=
  l.foldl (fun acc s =>
    if rel_included s then (acc.1 + s.size / s.entry_size, acc.2 + s.size)
    else acc) (0, 0)

/-! ## Helper lemmas -/

lemma all_eq_foldr {α : Type} (p : α → Bool) :
    ∀ l : List α, l.all p = l.foldr (fun s b => p s && b) true
  | [] => rfl
  | s :: l => by simp [List.all_cons, all_eq_foldr p l]

lemma closest_go_spec (vmaj vmin : Nat) :
    ∀ (l : List NdkEntry) (p : String × Nat),
      ∃ q : String × Nat,
        l.foldl (closestStep vmaj vmin) (some p) = some q ∧
        q.2 ≤ p.2 ∧
        (q.2 = p.2 ∨ ∃ e ∈ l, q.2 = clangDiff vmaj vmin e) ∧
        (∀ e ∈ l, q.2 ≤ clangDiff vmaj vmin e) := by
  intro l
  induction l with
  | nil => exact fun p => ⟨p, rfl, le_refl _, Or.inl rfl, by simp⟩
  | cons e l ih =>
    intro p
    by_cases h : clangDiff vmaj vmin e < p.2
    · obtain ⟨q, hq, hle, hat, hall⟩ := ih (e.ndk, clangDiff vmaj vmin e)
      refine ⟨q, ?_, ?_, ?_, ?_⟩
      · simpa [closestStep, h] using hq
      · exact le_trans hle (le_of_lt h)
      · rcases hat with h1 | ⟨x, hx, hxe⟩
        · exact Or.inr ⟨e, List.mem_cons_self e l, h1⟩
        · exact Or.inr ⟨x, List.mem_cons_of_mem e hx, hxe⟩
      · intro x hx
        rcases List.mem_cons.mp hx with rfl | hx
        · exact hle
        · exact hall x hx
    · obtain ⟨q, hq, hle, hat, hall⟩ := ih p
      refine ⟨q, ?_, hle, ?_, ?_⟩
      · simpa [closestStep, h] using hq
      · rcases hat with h1 | ⟨x, hx, hxe⟩
        · exact Or.inl h1
        · exact Or.inr ⟨x, List.mem_cons_of_mem e hx, hxe⟩
      · intro x hx
        rcases List.mem_cons.mp hx with rfl | hx
        · exact le_trans hle (not_lt.mp h)
        · exact hall x hx

lemma closest_fold_spec (vmaj vmin : Nat) (x : NdkEntry) (xs : List NdkEntry) :
    ∃ q : String × Nat,
      (x :: xs).foldl (closestStep vmaj vmin) none = some q ∧
      (∃ e ∈ x :: xs, q.2 = clangDiff vmaj vmin e) ∧
      (∀ e ∈ x :: xs, q.2 ≤ clangDiff vmaj vmin e) := by
  obtain ⟨q, hq, hle, hat, hall⟩ :=
    closest_go_spec vmaj vmin xs (x.ndk, clangDiff vmaj vmin x)
  refine ⟨q, ?_, ?_, ?_⟩
  · simpa [closestStep] using hq
  · rcases hat with h1 | ⟨e, he, hee⟩
    · exact ⟨x, List.mem_cons_self x xs, h1⟩
    · exact ⟨e, List.mem_cons_of_mem x he, hee⟩
  · intro e he
    rcases List.mem_cons.mp he with rfl | he
    · exact hle
    · exact hall e he

lemma closestNdk_spec (vmaj vmin : Nat) :
    ∃ q : String × Nat, closestNdk vmaj vmin = some q ∧
      (∃ e ∈ NDK_CLANG_MAPPING, q.2 = clangDiff vmaj vmin e) ∧
      (∀ e ∈ NDK_CLANG_MAPPING, q.2 ≤ clangDiff vmaj vmin e) := by
  rw [closestNdk, NDK_CLANG_MAPPING]
  simpa [NDK_CLANG_MAPPING] using
    closest_fold_spec vmaj vmin ⟨"r27", 18, 1, 0⟩
      [⟨"r26", 17, 0, 2⟩, ⟨"r25", 14, 0, 7⟩, ⟨"r24", 14, 0, 1⟩,
       ⟨"r23", 12, 0, 9⟩, ⟨"r22", 11, 0, 5⟩, ⟨"r21", 9, 0, 9⟩, ⟨"r20", 8, 0, 7⟩,
       ⟨"r19", 7, 0, 2⟩, ⟨"r18", 6, 0, 2⟩, ⟨"r17", 6, 0, 2⟩, ⟨"r16", 5, 0, 300080⟩,
       ⟨"r15", 5, 0, 300080⟩, ⟨"r14", 4, 0, 0⟩, ⟨"r13", 3, 8, 275480⟩,
       ⟨"r12", 3, 8, 256229⟩]

lemma reloc_totals_go : ∀ (l : List SectionFact) (a b : Nat),
    l.foldl (fun acc s =>
      if rel_included s then (acc.1 + s.size / s.entry_size, acc.2 + s.size)
      else acc) (a, b) =
    (a + ((l.filter rel_included).map (fun s => s.size / s.entry_size)).sum,
     b + ((l.filter rel_included).map (fun s => s.size)).sum) := by
  intro l
  induction l with
  | nil => simp
  | cons s l ih =>
    intro a b
    by_cases h : rel_included s = true
    · simp only [List.foldl_cons, h, if_pos, List.filter_cons_of_pos, ih,
        List.map_cons, List.sum_cons, Prod.mk.injEq]
      constructor <;> omega
    · simp only [List.foldl_cons, if_neg h, ih,
        List.filter_cons_of_neg (by simpa using h)]

lemma collectSections_append :
    ∀ (ls1 ls2 : List String) (found : Bool),
      collectSections found (ls1 ++ ls2) =
        collectSections found ls1 ++
        collectSections
          (found || ls1.any (fun l => occurs (trimStr l) "Section Headers:")) ls2 := by
  intro ls1
  induction ls1 with
  | nil => intro ls2 found; simp [collectSections]
  | cons l ls1 ih =>
    intro ls2 found
    by_cases hh : occurs (trimStr l) "Section Headers:" = true
    · simp [collectSections, hh, ih]
    · by_cases hf : found = true
      · subst hf
        cases hp : parseSectionLine (trimStr l) <;>
          simp [collectSections, hh, hp, ih]
      · have hf2 : found = false := by simpa using hf
        subst hf2
        simp [collectSections, hh, ih]

lemma sectionSizesFold_skip (l1 l2 : List PySection) (s : PySection)
    (h : int16 s.size = none) :
    sectionSizesFold (l1 ++ s :: l2) = sectionSizesFold (l1 ++ l2) := by
  simp [sectionSizesFold, List.foldl_append, h]

lemma loadAlignsObjdumpStep_snd (a b : List Char × Option (Nat × Nat)) (l : String)
    (h : a.2 = b.2) :
    (loadAlignsObjdumpStep a l).2 = (loadAlignsObjdumpStep b l).2 := by
  obtain ⟨a1, a2⟩ := a
  obtain ⟨b1, b2⟩ := b
  simp only at h
  subst h
  by_cases hl : occurs (trimStr l) "LOAD" = true
  · cases hp : searchAlign (trimStr l).data <;> cases a2 <;>
      simp [loadAlignsObjdumpStep, hl, hp, apply_ite Prod.snd]
  · simp [loadAlignsObjdumpStep, hl]

lemma loadAlignsObjdump_go_snd :
    ∀ (ls : List String) (a b : List Char × Option (Nat × Nat)), a.2 = b.2 →
      (ls.foldl loadAlignsObjdumpStep a).2 = (ls.foldl loadAlignsObjdumpStep b).2 := by
  intro ls
  induction ls with
  | nil => intro a b h; simpa using h
  | cons l ls ih =>
    intro a b h
    simp only [List.foldl_cons]
    exact ih _ _ (loadAlignsObjdumpStep_snd a b l h)

lemma loadAlignsObjdump_skip (l1 l2 : List String) (l : String)
    (h1 : occurs (trimStr l) "LOAD" = true)
    (h2 : searchAlign (trimStr l).data = none) :
    (loadAlignsObjdump (l1 ++ l :: l2)).2 = (loadAlignsObjdump (l1 ++ l2)).2 := by
  simp only [loadAlignsObjdump, List.foldl_append, List.foldl_cons]
  exact loadAlignsObjdump_go_snd l2 _ _
    (by simp [loadAlignsObjdumpStep, h1, h2])

lemma alignedSize_dvd (n a : Nat) : a ∣ alignedSizeOf n a :=
  dvd_mul_left a ((n + a - 1) / a)

lemma le_alignedSize (n a : Nat) (ha : 0 < a) : n ≤ alignedSizeOf n a := by
  rcases n with _ | m
  · exact Nat.zero_le _
  · unfold alignedSizeOf
    have hq : (m + 1 + a - 1) / a = m / a + 1 := by
      have : m + 1 + a - 1 = m + a := by omega
      rw [this, Nat.add_div_right m ha]
    rw [hq]
    have h1 : m % a + a * (m / a) = m := Nat.mod_add_div m a
    have h2 : m % a < a := Nat.mod_lt _ ha
    have h3 : (m / a + 1) * a = a * (m / a) + a := by ring
    rw [h3]
    omega

lemma alignedSize_min (n a k : Nat) (ha : 0 < a) (h1 : a ∣ k) (h2 : n ≤ k) :
    alignedSizeOf n a ≤ k := by
  obtain ⟨j, rfl⟩ := h1
  unfold alignedSizeOf
  have hle : (n + a - 1) / a ≤ (a * j + a - 1) / a :=
    Nat.div_le_div_right (by omega)
  have heq : (a * j + a - 1) / a = j := by
    have h3 : a * j + a - 1 = a * j + (a - 1) := by omega
    rw [h3, Nat.mul_add_div ha, Nat.div_eq_of_lt (by omega)]
    omega
  calc (n + a - 1) / a * a ≤ j * a := Nat.mul_le_mul_right a (heq ▸ hle)
    _ = a * j := Nat.mul_comm j a

lemma alignedSize_eq_self (n a : Nat) (ha : 0 < a) (h : a ∣ n) :
    alignedSizeOf n a = n := by
  refine le_antisymm ?_ (le_alignedSize n a ha)
  exact alignedSize_min n a n ha h (le_refl n)

lemma append_aligned_ne (p : String) : p ++ ".aligned" ≠ p := by
  intro h
  have hlen : (p ++ ".aligned").data.length = p.data.length := by rw [h]
  have hd : (p ++ ".aligned").data = p.data ++ ".aligned".data := rfl
  have h8 : (".aligned" : String).data.length = 8 := rfl
  rw [hd, List.length_append, h8] at hlen
  omega

/-! ## Claim theorems -/

/-- C1: for every parsed segment listing, the alignment classifier's verdict
`supports_16kb` is true iff every LOAD segment has `alignment >= 16384` (the
per-segment offset/vaddr booleans never affect it); zero LOAD segments yield
`true`; over a multi-segment input the verdict is the AND of the per-segment
booleans, and alignment 4096 gives `false` while 16384 and 65536 give
`true`. -/
theorem c1_supports_16kb_verdict : ∀ segs : List SegmentFact,
    (supports_16kb segs = true ↔ ∀ s ∈ segs, s.kind = "LOAD" → 16384 ≤ s.alignment) ∧
    supports_16kb [] = true ∧
    supports_16kb segs =
      (load_segments segs).foldr (fun s b => segment_alignment_16kb s && b) true ∧
    (∀ f g : SegmentFact → Nat,
      supports_16kb (segs.map (fun s =>
        { s with file_offset := f s, virtual_address := g s })) = supports_16kb segs) ∧
    (∀ k o v, segment_alignment_16kb ⟨k, o, v, 4096⟩ = false ∧
      segment_alignment_16kb ⟨k, o, v, 16384⟩ = true ∧
      segment_alignment_16kb ⟨k, o, v, 65536⟩ = true) := by
  intro segs
  refine ⟨?_, rfl, all_eq_foldr _ _, ?_, ?_⟩
  · simp only [supports_16kb, load_segments, List.all_eq_true, List.mem_filter,
      segment_alignment_16kb, and_imp, beq_iff_eq, decide_eq_true_eq]
  · intro f g
    induction segs with
    | nil => rfl
    | cons s segs ih =>
      simp only [List.map_cons, supports_16kb, load_segments, List.filter_cons] at ih ⊢
      by_cases hk : (s.kind == "LOAD") = true
      · simp only [hk, if_pos, List.all_cons] at ih ⊢
        rw [show segment_alignment_16kb
            { s with file_offset := f s, virtual_address := g s } =
            segment_alignment_16kb s from rfl]
        rw [ih]
      · simp only [hk, if_neg, Bool.false_eq_true, not_false_iff] at ih ⊢
        exact ih
  · intro k o v
    refine ⟨?_, ?_, ?_⟩ <;> simp [segment_alignment_16kb]

/-- C1 witness: the classifier evaluated through the theorem at concrete
listings — the empty listing passes, a 4096-aligned LOAD segment fails, and
the offset/vaddr fields of a listing can change without changing the
verdict. -/
theorem c1_supports_16kb_verdict_witness :
    supports_16kb [] = true ∧
    supports_16kb [⟨"LOAD", 0, 0, 4096⟩] = false ∧
    supports_16kb [⟨"LOAD", 0, 0, 16384⟩, ⟨"LOAD", 300, 7, 65536⟩] = true := by
  have h1 := (c1_supports_16kb_verdict []).2.1
  have h2 := c1_supports_16kb_verdict [⟨"LOAD", 0, 0, 4096⟩]
  have h3 := (c1_supports_16kb_verdict [⟨"LOAD", 0, 0, 16384⟩, ⟨"LOAD", 300, 7, 65536⟩]).1
  refine ⟨h1, ?_, ?_⟩
  · rw [(c1_supports_16kb_verdict [⟨"LOAD", 0, 0, 4096⟩]).2.2.1]
    decide
  · exact h3.mpr (by decide)

/-- The section-table row from the spec scenario: the only row of a library
that carries a `.gnu.hash` section and no `.hash` section. -/
def gnuOnlyRow : String :=
  "[ 6] .gnu.hash GNU_HASH 0000000000002068 002068 000224 00 A 3 0 8"

/-- C2: the decision-table half of the claim holds (the verdict chain is
exactly the total function of `(has_gnu_hash, has_sysv_hash)` stated), but the
round-trip half fails in the source: on text containing only a `.gnu.hash`
row, `check_hash_style` computes `has_sysv_hash = ('.hash' in stdout) = true`
because `.hash` is a substring of `.gnu.hash`, and returns verdict `both`
instead of `gnu` — while the companion parser `analyze_hash_sections`
(which matches per line, `.gnu.hash` first) correctly reports
`(gnu_found, trad_found) = (true, false)`, which the claimed table maps to
`gnu`. The `gnu` verdict is unreachable from `check_hash_style`. -/
theorem c2_hash_style_gnu_row_evaluates_to_both :
    (check_hash_style_core gnuOnlyRow).has_gnu_hash = true ∧
    (check_hash_style_core gnuOnlyRow).has_sysv_hash = true ∧
    (check_hash_style_core gnuOnlyRow).hash_style = "both" ∧
    ("both" : String) ≠ "gnu" ∧
    analyze_hash_sections gnuOnlyRow = (true, false) ∧
    (check_hash_style_core "[ 3] .hash HASH 0000000000000298 000298 000054 04 A 4 0 8\n[ 6] .gnu.hash GNU_HASH 0000000000002068 002068 000224 00 A 3 0 8").hash_style = "both" := by
  refine ⟨by decide, by decide, by decide, by decide, by decide, by decide⟩

/-- C3: on the section-table input consisting solely of the scenario row,
`check_hash_style` returns `both` (not the claimed `gnu`, see C2), and
`get_section_info` records nothing at all — the row is only parsed after a
line containing `Section Headers:` has been seen; moreover, even when such a
header line is prepended, the whitespace inside `[ 6]` shifts every field by
one token, so the section is recorded under the name `6]` with size
`0x2068 = 8296` (the offset column), never `.gnu.hash` with
`0x224 = 548`. -/
theorem c3_gnu_row_scenario_fails :
    (check_hash_style_core gnuOnlyRow).hash_style = "both" ∧
    (get_section_info_core gnuOnlyRow).sections = [] ∧
    (get_section_info_core gnuOnlyRow).section_sizes = [] ∧
    (get_section_info_core ("Section Headers:\n" ++ gnuOnlyRow)).sections =
      [{ index := "", name := "6]", type := ".gnu.hash", address := "GNU_HASH",
         offset := "0000000000002068", size := "002068" }] ∧
    (get_section_info_core ("Section Headers:\n" ++ gnuOnlyRow)).section_sizes =
      [("6]", 8296)] := by
  refine ⟨by decide, by decide, by decide, by decide, by decide⟩

/-- A section-table row whose relocation section carries the Android-specific
type token: per the claim's `has_android_rel` definition the verdict should be
`android`. -/
def androidRelaRow : String :=
  "[ 8] .rela.dyn ANDROID_RELA 00000000000022e0 0022e0 000020 18 A 3 0 8"

/-- C4 counterexample: on a section table whose only relocation section is an
`ANDROID_RELA`-typed `.rela.dyn` — an input where the claim's
`has_android_rel` holds (the type token is `ANDROID_RELA`, as the companion
`analyze_relocation_sections` flags confirm) and so the claimed verdict is
`android` — `check_relocation_packing` returns `none`: its verdict never
consults type tokens or an `android.rel` name, only the three name
substrings. On the empty table it returns `unknown`, not the claimed
`no_relocations`. -/
theorem c4_android_rela_counterexample :
    occurs androidRelaRow "ANDROID_RELA" = true ∧
    analyze_relocation_sections androidRelaRow = (true, false) ∧
    (check_relocation_packing_core androidRelaRow).relocation_packing = "none" ∧
    ("none" : String) ≠ "android" ∧
    (check_relocation_packing_core "").relocation_packing = "unknown" ∧
    ("unknown" : String) ≠ "no_relocations" := by
  refine ⟨by decide, by decide, by decide, by decide, by decide, by decide⟩

/-- C4 (amended): the verdict of `check_relocation_packing` obeys the
precedence `'.relr.dyn' in stdout → android`; else
`'.rel.dyn' in stdout or '.rela.dyn' in stdout → none` (regardless of the
sections' type tokens, so `ANDROID_RELA`-typed `.rela.dyn` rows also land in
`none`); else `unknown` (the verdict `no_relocations` does not exist). The
type-token test lives only in the companion script's
`analyze_relocation_sections` flags, which do not feed this verdict. -/
theorem c4_relocation_verdict_precedence : ∀ s : String,
    ((check_relocation_packing_core s).relocation_packing = "android" ↔
      occurs s ".relr.dyn" = true) ∧
    ((check_relocation_packing_core s).relocation_packing = "none" ↔
      (occurs s ".relr.dyn" = false ∧
        (occurs s ".rel.dyn" = true ∨ occurs s ".rela.dyn" = true))) ∧
    ((check_relocation_packing_core s).relocation_packing = "unknown" ↔
      (occurs s ".relr.dyn" = false ∧ occurs s ".rel.dyn" = false ∧
        occurs s ".rela.dyn" = false)) ∧
    (check_relocation_packing_core s).relocation_packing ≠ "no_relocations" ∧
    (check_relocation_packing_core s).has_relr = occurs s ".relr.dyn" ∧
    (check_relocation_packing_core s).has_traditional_rel =
      (occurs s ".rel.dyn" || occurs s ".rela.dyn") := by
  intro s
  by_cases h1 : occurs s ".relr.dyn" = true <;>
    by_cases h2 : occurs s ".rel.dyn" = true <;>
      by_cases h3 : occurs s ".rela.dyn" = true <;>
        simp [check_relocation_packing_core, h1, h2, h3]

/-- C4 witness: the amended precedence applied at concrete inputs — a table
mentioning `.relr.dyn` classifies as `android`, and one mentioning only
`.rela.dyn` classifies as `none`. -/
theorem c4_relocation_verdict_precedence_witness :
    (check_relocation_packing_core ".relr.dyn").relocation_packing = "android" ∧
    (check_relocation_packing_core ".rela.dyn").relocation_packing = "none" := by
  exact ⟨((c4_relocation_verdict_precedence ".relr.dyn").1).mpr (by decide),
    ((c4_relocation_verdict_precedence ".rela.dyn").2.1).mpr (by decide)⟩

/-- C5: for every section listing, the relocation accounting's `total_count`
is exactly the sum of `size / entry_size` (integer division) over the matched
sections with `size > 0` and `entry_size > 0` (and `total_size` the sum of
their sizes); a section whose `entry_size` is 0 contributes nothing to either
total regardless of its `size`. -/
theorem c5_reloc_totals : ∀ l : List SectionFact,
    (reloc_totals l).1 =
      ((l.filter rel_included).map (fun s => s.size / s.entry_size)).sum ∧
    (reloc_totals l).2 = ((l.filter rel_included).map (fun s => s.size)).sum ∧
    (∀ s : SectionFact, s.entry_size = 0 → rel_included s = false) ∧
    (∀ (l1 l2 : List SectionFact) (s : SectionFact), s.entry_size = 0 →
      reloc_totals (l1 ++ s :: l2) = reloc_totals (l1 ++ l2)) := by
  intro l
  have hzero : ∀ s : SectionFact, s.entry_size = 0 → rel_included s = false := by
    intro s h
    simp [rel_included, h]
  refine ⟨?_, ?_, hzero, ?_⟩
  · rw [show reloc_totals l = _ from reloc_totals_go l 0 0]
    simp
  · rw [show reloc_totals l = _ from reloc_totals_go l 0 0]
    simp
  · intro l1 l2 s h
    simp [reloc_totals, List.foldl_append, hzero s h]

/-- C5 witness: the accounting applied through the theorem at a concrete
listing — a zero-entry-size `.rel.dyn` section of size 100 contributes
nothing, while a `.rela.dyn` section of size 96 with entry size 24 alone
determines `total_count = 4` and `total_size = 96`. -/
theorem c5_reloc_totals_witness :
    reloc_totals [⟨4, ".rela.dyn", "RELA", 0, 0, 96, 24⟩,
      ⟨5, ".rel.dyn", "REL", 0, 0, 100, 0⟩] =
      reloc_totals [⟨4, ".rela.dyn", "RELA", 0, 0, 96, 24⟩] ∧
    reloc_totals [⟨4, ".rela.dyn", "RELA", 0, 0, 96, 24⟩] = (4, 96) := by
  constructor
  · exact (c5_reloc_totals []).2.2.2 [⟨4, ".rela.dyn", "RELA", 0, 0, 96, 24⟩] []
      ⟨5, ".rel.dyn", "REL", 0, 0, 100, 0⟩ rfl
  · decide

/-- A corpus containing `clang version 17.0.2` (and no direct NDK marker)
preceded by a different clang version string. -/
def c6Corpus : String := "clang version 18.1.0 clang version 17.0.2"

/-- C6 counterexample: `c6Corpus` contains `clang version 17.0.2` and no
direct NDK marker, yet the inference returns `r27`, not the claimed `r26` —
`re.findall(...)[0]` takes the leftmost clang-version match (`18.1.0`
here), so the claim fails when an earlier occurrence names another
version. -/
theorem c6_first_match_counterexample :
    occurs c6Corpus "clang version 17.0.2" = true ∧
    directNdkDetect c6Corpus = none ∧
    (analyze_clang_ndk_version_core c6Corpus).ndk_version = "r27" ∧
    ("r27" : String) ≠ "r26" := by
  refine ⟨by decide, by decide, by decide, by decide⟩

/-- C6 (amended): for every corpus with no direct NDK marker whose first
detected Clang version (leftmost match of the ordered patterns) is `17.0.2`,
the inference returns `ndk_version = "r26"` with certainty `high` and method
`clang_inference`; in general, whenever the detected Clang version agrees in
major and minor with some table entry's reference version (nearest distance
0), the certainty is `high` and the method is `clang_inference`. -/
theorem c6_clang_inference_from_corpus : ∀ (c : String) (a b p : Nat),
    directNdkDetect c = none →
    extractClangVersion c = some (a, b, p) →
    ((a = 17 ∧ b = 0 ∧ p = 2) →
      analyze_clang_ndk_version_core c =
        { clang_version := some (17, 0, 2), ndk_version := "r26",
          ndk_version_certainty := "high",
          detection_method := "clang_inference" }) ∧
    ((∃ e ∈ NDK_CLANG_MAPPING, e.cmaj = a ∧ e.cmin = b) →
      (analyze_clang_ndk_version_core c).ndk_version_certainty = "high" ∧
      (analyze_clang_ndk_version_core c).detection_method = "clang_inference") := by
  intro c a b p h1 h2
  have hcore : analyze_clang_ndk_version_core c = clang_inference_result a b p := by
    simp [analyze_clang_ndk_version_core, h1, h2]
  constructor
  · rintro ⟨rfl, rfl, rfl⟩
    rw [hcore]
    decide
  · rintro ⟨e, he, hmaj, hmin⟩
    obtain ⟨q, hq, _, hall⟩ := closestNdk_spec a b
    have hde : clangDiff a b e = 0 := by
      simp [clangDiff, hmaj.symm, hmin.symm, Nat.dist_self]
    have hd0 : q.2 = 0 := Nat.le_zero.mp (hde ▸ hall e he)
    obtain ⟨n, d⟩ := q
    simp only at hd0
    subst hd0
    rw [hcore]
    unfold clang_inference_result
    rw [hq]
    simp [certaintyOfDiff]

/-- C6 witness: the amended statement applied to the corpus consisting of
exactly `clang version 17.0.2`, with both hypotheses discharged by
evaluation. -/
theorem c6_clang_inference_from_corpus_witness :
    directNdkDetect "clang version 17.0.2" = none ∧
    extractClangVersion "clang version 17.0.2" = some (17, 0, 2) ∧
    analyze_clang_ndk_version_core "clang version 17.0.2" =
      { clang_version := some (17, 0, 2), ndk_version := "r26",
        ndk_version_certainty := "high", detection_method := "clang_inference" } := by
  have h := c6_clang_inference_from_corpus "clang version 17.0.2" 17 0 2
    (by decide) (by decide)
  exact ⟨by decide, by decide, h.1 ⟨rfl, rfl, rfl⟩⟩

/-- C7: for every detected version, the loop chooses an entry realizing the
minimum of the distance `|Δmajor| * 100 + |Δminor|` (patch ignored) over the
table, and the certainty assigned from that chosen distance is `high` at 0,
`medium` below 5, and `low` otherwise; in particular, a version whose nearest
entry differs only in minor by exactly 4 (such as Clang 9.4 against r21's
9.0) gets `medium`, and by 5 or more (such as 9.5) gets `low`. -/
theorem c7_certainty_from_distance : ∀ a b p : Nat,
    (∃ n d, closestNdk a b = some (n, d) ∧
      (∀ e ∈ NDK_CLANG_MAPPING, d ≤ clangDiff a b e) ∧
      (∃ e ∈ NDK_CLANG_MAPPING, d = clangDiff a b e) ∧
      (clang_inference_result a b p).ndk_version_certainty =
        (if d = 0 then "high" else if d < 5 then "medium" else "low")) ∧
    (∀ d, d ≠ 0 → d < 5 → certaintyOfDiff d = "medium") ∧
    (∀ d, 5 ≤ d → certaintyOfDiff d = "low") ∧
    certaintyOfDiff 0 = "high" ∧
    closestNdk 9 4 = some ("r21", 4) ∧
    (clang_inference_result 9 4 0).ndk_version_certainty = "medium" ∧
    closestNdk 9 5 = some ("r21", 5) ∧
    (clang_inference_result 9 5 0).ndk_version_certainty = "low" := by
  intro a b p
  refine ⟨?_, ?_, ?_, rfl, by decide, by decide, by decide, by decide⟩
  · obtain ⟨⟨n, d⟩, hq, hat, hall⟩ := closestNdk_spec a b
    refine ⟨n, d, hq, hall, hat, ?_⟩
    unfold clang_inference_result
    rw [hq]
    simp [certaintyOfDiff]
  · intro d h0 h5
    simp [certaintyOfDiff, h0, h5]
  · intro d h5
    have h0 : d ≠ 0 := by omega
    have hlt : ¬ d < 5 := by omega
    simp [certaintyOfDiff, h0, hlt]

/-- C7 witness: the certainty clauses of the theorem instantiated at the
concrete distances 4, 5 and 204. -/
theorem c7_certainty_from_distance_witness :
    certaintyOfDiff 4 = "medium" ∧ certaintyOfDiff 5 = "low" ∧
    certaintyOfDiff 204 = "low" := by
  have h := c7_certainty_from_distance 17 0 2
  exact ⟨h.2.1 4 (by decide) (by decide), h.2.2.1 5 (by decide),
    h.2.2.1 204 (by decide)⟩

/-- A tool environment where the target file exists and every collaborator
command succeeds. -/
def envAllOk : ToolEnv :=
  { file_exists := true, ndk_root_set := true, file_size := 16384,
    file_cmd := .ok "", nm_out := .ok "", readelf_d := .ok "",
    objdump_p := .ok "", readelf_l := .ok "", readelf_h := .ok "",
    readelf_s := .ok "", strings_out := .ok "" }

/-- C8 counterexample: a target file that exists but whose name does not end
in `.so` also aborts the whole run (`analyze_so_file` returns its top-level
error dict before any dimension runs), so a missing file is not the only
whole-run-aborting condition. -/
theorem c8_not_so_aborts_counterexample :
    envAllOk.file_exists = true ∧
    analyze_so_file_model "libdemo.txt" envAllOk =
      .error "Not a .so file: libdemo.txt" := by
  exact ⟨rfl, rfl⟩

/-- C8 (amended): a missing target file or a target path not ending in `.so`
are the only whole-run-aborting conditions; once past those gates, every
dimension's result is a function of that dimension's own collaborator
outcomes (`readelf -S` feeds hash-style, relocation-packing and section-info;
`strings` feeds the NDK inference and optimization; `objdump`/`readelf
-l`/`file` feed alignment), and a collaborator's non-zero exit degrades
exactly its dimensions to an error value retaining the message. -/
theorem c8_abort_and_isolation : ∀ (path : String) (env : ToolEnv),
    ((∃ e, analyze_so_file_model path env = .error e) ↔
      (env.file_exists = false ∨ endsWithStr path ".so" = false)) ∧
    (∀ r, analyze_so_file_model path env = .ok r →
      r.hash_style = check_hash_style_t env.readelf_s ∧
      r.relocation_packing = check_relocation_packing_t env.readelf_s ∧
      r.section_info = get_section_info_t env.readelf_s ∧
      r.ndk_version = analyze_clang_ndk_version_t env.strings_out ∧
      r.alignment = check_alignment_model env.file_size env.objdump_p
        env.readelf_l env.file_cmd ∧
      r.exported_symbols = get_exported_symbols_t env.ndk_root_set env.nm_out) ∧
    (∀ e, check_hash_style_t (.error e) =
      .error ("Error analyzing hash style: " ++ e)) ∧
    (∀ e, check_relocation_packing_t (.error e) =
      .error ("Error analyzing relocation packing: " ++ e)) ∧
    (∀ e, analyze_clang_ndk_version_t (.error e) =
      .error ("Error extracting strings from file: " ++ e)) ∧
    (∀ e, get_section_info_t (.error e) =
      .error ("Error getting section info: " ++ e)) := by
  intro path env
  refine ⟨?_, ?_, fun e => rfl, fun e => rfl, fun e => rfl, fun e => rfl⟩
  · constructor
    · rintro ⟨e, he⟩
      by_cases h1 : env.file_exists = false
      · exact Or.inl h1
      · by_cases h2 : endsWithStr path ".so" = false
        · exact Or.inr h2
        · exfalso
          simp [analyze_so_file_model, h1, h2] at he
    · rintro (h | h)
      · exact ⟨"File not found: " ++ path, by simp [analyze_so_file_model, h]⟩
      · by_cases h1 : env.file_exists = false
        · exact ⟨"File not found: " ++ path,
            by simp [analyze_so_file_model, h1]⟩
        · exact ⟨"Not a .so file: " ++ path,
            by simp [analyze_so_file_model, h1, h]⟩
  · intro r hr
    by_cases h1 : env.file_exists = false
    · simp [analyze_so_file_model, h1] at hr
    · by_cases h2 : endsWithStr path ".so" = false
      · simp [analyze_so_file_model, h1, h2] at hr
      · simp [analyze_so_file_model, h1, h2] at hr
        subst hr
        exact ⟨rfl, rfl, rfl, rfl, rfl, rfl⟩

/-- C8 witness: the amended statement applied to a passing run (`lib.so`,
all tools succeeding) and to a failing `readelf -S`, plus the file-missing
abort evaluated directly. -/
theorem c8_abort_and_isolation_witness :
    (∃ r, analyze_so_file_model "lib.so" envAllOk = .ok r ∧
      r.hash_style = check_hash_style_t envAllOk.readelf_s ∧
      r.ndk_version = analyze_clang_ndk_version_t envAllOk.strings_out) ∧
    check_hash_style_t (.error "boom") =
      .error "Error analyzing hash style: boom" ∧
    analyze_so_file_model "missing.so" { envAllOk with file_exists := false } =
      .error "File not found: missing.so" := by
  have h := c8_abort_and_isolation "lib.so" envAllOk
  refine ⟨?_, h.2.2.1 "boom", rfl⟩
  cases hv : analyze_so_file_model "lib.so" envAllOk with
  | error e =>
    rcases (h.1).mp ⟨e, hv⟩ with h1 | h1
    · exact absurd h1 (by decide)
    · exact absurd h1 (by decide)
  | ok r =>
    exact ⟨r, rfl, (h.2.1 r hv).1, (h.2.1 r hv).2.2.2.1⟩

/-- A section table with a header line and one 7-token bracket row whose size
field is not valid hexadecimal. -/
def c9BadSizeText : String := "Section Headers:\n[1] .demo PROGBITS 0000 000000 ZZZZ 00"

/-- C9 counterexample: a bracket-indexed row with the expected column shape
but a non-hexadecimal size field is not silently skipped — `get_section_info`
returns it as a parsed section (with the raw size string); only the size
statistics drop it. The claim's skip policy therefore does not hold for this
malformation class. -/
theorem c9_nonhex_size_not_skipped :
    int16 "ZZZZ" = none ∧
    (get_section_info_core c9BadSizeText).sections =
      [{ index := "1", name := ".demo", type := "PROGBITS", address := "0000",
         offset := "000000", size := "ZZZZ" }] ∧
    (get_section_info_core c9BadSizeText).sections ≠ [] ∧
    (get_section_info_core c9BadSizeText).section_sizes = [] := by
  refine ⟨by decide, by decide, by decide, by decide⟩

/-- C9 (amended): the parsers are total Lean functions mirroring the source's
exception-free loops, and they skip malformed lines as follows — parsing
distributes over concatenation preserving input order (each line is handled
locally); a row splitting into fewer than 7 tokens is skipped; a section
whose size fails `int(_, 16)` is kept in the parsed sequence but skipped by
the size statistics; a LOAD line without an `align 2**n` field contributes
nothing to the alignment result. -/
theorem c9_parser_totality_and_skipping :
    (∀ (found : Bool) (ls1 ls2 : List String),
      collectSections found (ls1 ++ ls2) =
        collectSections found ls1 ++
        collectSections (found || ls1.any fun l =>
          occurs (trimStr l) "Section Headers:") ls2) ∧
    (∀ line : String, (tokensOf line).length < 7 → parseSectionLine line = none) ∧
    (∀ (l1 l2 : List PySection) (s : PySection), int16 s.size = none →
      sectionSizesFold (l1 ++ s :: l2) = sectionSizesFold (l1 ++ l2)) ∧
    (∀ t : String, (get_section_info_core t).sections =
      collectSections false (linesOf t)) ∧
    (∀ (ls1 ls2 : List String) (l : String),
      occurs (trimStr l) "LOAD" = true → searchAlign (trimStr l).data = none →
      (loadAlignsObjdump (ls1 ++ l :: ls2)).2 =
        (loadAlignsObjdump (ls1 ++ ls2)).2) := by
  refine ⟨fun found ls1 ls2 => collectSections_append ls1 ls2 found, ?_,
    sectionSizesFold_skip, fun t => rfl, loadAlignsObjdump_skip⟩
  intro line hlt
  unfold parseSectionLine
  split
  · split
    · rw [if_neg (by omega)]
    · rfl
  · rfl

/-- C9 witness: the amended statement applied at concrete inputs — a short
bracket row is skipped, a non-hex-size section leaves the size statistics
unchanged, and an align-less LOAD line leaves the alignment result
unchanged. -/
theorem c9_parser_totality_and_skipping_witness :
    parseSectionLine "[1] short" = none ∧
    sectionSizesFold [⟨"1", ".a", "T", "0", "0", "XYZ"⟩] = sectionSizesFold [] ∧
    (loadAlignsObjdump ["LOAD no align here"]).2 = (loadAlignsObjdump []).2 := by
  have h := c9_parser_totality_and_skipping
  refine ⟨h.2.1 "[1] short" (by decide), ?_, ?_⟩
  · exact h.2.2.1 [] [] ⟨"1", ".a", "T", "0", "0", "XYZ"⟩ (by decide)
  · exact h.2.2.2.2 [] [] "LOAD no align here" (by decide) (by decide)

/-- C10: for every existing `.so` file and positive alignment, `align_so_file`
(default output path) computes the least multiple of the alignment that is at
least the original size; if the original size is already such a multiple it
reports `already_aligned` and writes nothing; otherwise it writes, at the
fresh path `file_path + ".aligned"` (never the original path), the original
bytes followed by exactly `aligned_size - original_size` zero bytes, reporting
that difference as `padding_added`. (Alignment 0 would raise
`ZeroDivisionError` in the source and is modelled as the `raised` outcome;
the claim is settled for the meaningful positive alignments.) -/
theorem c10_align_so_file_correct :
    ∀ (p : String) (content : List Nat) (a : Nat),
      endsWithStr p ".so" = true → 0 < a →
      (a ∣ alignedSizeOf content.length a ∧
        content.length ≤ alignedSizeOf content.length a ∧
        (∀ k, a ∣ k → content.length ≤ k → alignedSizeOf content.length a ≤ k)) ∧
      (a ∣ content.length →
        align_so_file true p content a = .already_aligned content.length a) ∧
      (¬ a ∣ content.length →
        align_so_file true p content a =
          .aligned content.length (alignedSizeOf content.length a)
            (alignedSizeOf content.length a - content.length) a
            (p ++ ".aligned")
            (content ++ List.replicate
              (alignedSizeOf content.length a - content.length) 0) ∧
        (content ++ List.replicate
          (alignedSizeOf content.length a - content.length) 0).length =
          alignedSizeOf content.length a ∧
        (p ++ ".aligned") ≠ p) := by
  intro p content a hso ha
  refine ⟨⟨alignedSize_dvd content.length a, le_alignedSize content.length a ha,
    fun k => alignedSize_min content.length a k ha⟩, ?_, ?_⟩
  · intro hdvd
    have hpad : alignedSizeOf content.length a - content.length = 0 := by
      rw [alignedSize_eq_self content.length a ha hdvd]
      omega
    have ha0 : ¬ a = 0 := by omega
    simp [align_so_file, hso, ha0, hpad]
  · intro hndvd
    have hne : alignedSizeOf content.length a ≠ content.length := by
      intro h
      exact hndvd (h ▸ alignedSize_dvd content.length a)
    have hpad : alignedSizeOf content.length a - content.length ≠ 0 := by
      have := le_alignedSize content.length a ha
      omega
    refine ⟨?_, ?_, append_aligned_ne p⟩
    · have ha0 : ¬ a = 0 := by omega
      simp [align_so_file, hso, ha0, hpad]
    · rw [List.length_append, List.length_replicate]
      have := le_alignedSize content.length a ha
      omega

/-- C10 witness: the theorem applied to a 3-byte `lib.so` with alignment 4
(one zero byte of padding at the fresh `.aligned` path) and to a 4-byte one
(already aligned). -/
theorem c10_align_so_file_correct_witness :
    align_so_file true "lib.so" [1, 2, 3] 4 =
      .aligned 3 4 1 4 "lib.so.aligned" [1, 2, 3, 0] ∧
    align_so_file true "lib.so" [1, 2, 3, 4] 4 = .already_aligned 4 4 := by
  have h := c10_align_so_file_correct "lib.so" [1, 2, 3] 4 (by decide) (by decide)
  have h2 := c10_align_so_file_correct "lib.so" [1, 2, 3, 4] 4 (by decide) (by decide)
  constructor
  · have h3 := (h.2.2 (by decide)).1
    rw [h3]
    decide
  · exact h2.2.1 (by decide)
